import Mathlib

/-!
Shallow embedding of the `mown` crate (`src/lib.rs`): two containers
`Mown` and `MownMut` holding either an owned representation or a
borrowed reference, with all derived behaviour (equality, ordering,
hashing, display) delegated through `as_ref`.

Modelling conventions:
* A Rust shared reference `&'a T` is modelled by its observable
  referent, a value of type `T`.  A mutable reference `&'a mut T` in
  the `Borrowed` variant of `MownMut` is modelled the same way, with
  mutation made explicit as a container-to-container function.
* The trait `ToOwned { type Owned: Borrow<Self> }` is modelled as a
  structure bundling the associated type and the `borrow` projection.
* The extra bound `T::Owned: BorrowMut<T>` used by `as_mut` is
  modelled as a bundle of the read and write sides of the mutable
  reference `borrow_mut` returns: `get` reads its referent and
  `modify` applies a mutation through it to the owned representation.
* Rust `String` / `str` are both modelled as Lean `String`; `Vec<A>`
  and the slice `[A]` are both modelled as `List A`.  In each of the
  crate's three `ToOwned` instances the `borrow` projection is then
  the identity on the observable value.
-/

/-- Rust trait `ToOwned { type Owned: Borrow<Self>; }`:
the associated owned representation together with the `Borrow<Self>`
projection that views the representation as the value type. -/
structure ToOwnedImpl (T : Type) where
  Owned : Type
  borrow : Owned → T

/-- The bound `T::Owned: BorrowMut<T>`: the mutable reference returned
by `borrow_mut` on the owned representation, split into its read side
(`get`: the referent of that `&mut T`) and its write side (`modify`:
applying a mutation through that `&mut T` to the representation). -/
structure BorrowMutOps {T : Type} (inst : ToOwnedImpl T) where
  get : inst.Owned → T
  modify : (T → T) → inst.Owned → inst.Owned

/-- Instance `impl<T: Sized> ToOwned for T { type Owned = T; }` — the blanket
identity instance: a sized type owns itself and borrowing is the
identity. -/
@[reducible]
def sizedToOwned (T : Type) : ToOwnedImpl T :=
  { Owned := T, borrow := fun t => t }

/-- Instance `BorrowMut` for the blanket sized instance: `borrow_mut` on `T`
is the identity reference, so reading it is the identity and writing
through it replaces the value. -/
@[reducible]
def sizedBorrowMut (T : Type) : BorrowMutOps (sizedToOwned T) :=
  { get := fun t => t, modify := fun f t => f t }

/-- Instance `impl ToOwned for str { type Owned = String; }` — both `str` and
`String` are modelled as Lean `String`, so the `Borrow<str>`
projection of `String` is the identity on the observable text. -/
@[reducible]
def strToOwned : ToOwnedImpl String :=
  { Owned := String, borrow := fun s => s }

/-- Instance `BorrowMut<str>` for `String`: the mutable text view. -/
@[reducible]
def strBorrowMut : BorrowMutOps strToOwned :=
  { get := fun s => s, modify := fun f s => f s }

/-- Instance `impl<T> ToOwned for [T] { type Owned = Vec<T>; }` — both the
slice and the vector are modelled as `List A`, so the `Borrow<[T]>`
projection of `Vec<T>` is the identity on the observable sequence. -/
@[reducible]
def sliceToOwned (A : Type) : ToOwnedImpl (List A) :=
  { Owned := List A, borrow := fun l => l }

/-- Instance `BorrowMut<[T]>` for `Vec<T>`: the mutable sequence view. -/
@[reducible]
def sliceBorrowMut (A : Type) : BorrowMutOps (sliceToOwned A) :=
  { get := fun l => l, modify := fun f l => f l }

/-- Enum `pub enum Mown<'a, T: ?Sized + ToOwned> { Owned(T::Owned), Borrowed(&'a T) }` -/
inductive Mown {T : Type} (inst : ToOwnedImpl T) : Type where
  | Owned : inst.Owned → Mown inst
  | Borrowed : T → Mown inst

namespace Mown

variable {T : Type} {inst : ToOwnedImpl T}

/-- Method `Mown::is_owned`. -/
def is_owned : Mown inst → Bool
  | .Owned _ => true
  | .Borrowed _ => false

/-- Method `Mown::is_borrowed`. -/
def is_borrowed : Mown inst → Bool
  | .Owned _ => false
  | .Borrowed _ => true

/-- Method `Mown::as_mut`, modelled by the referent of the returned
`Option<&mut T>`: `Some(t.borrow_mut())` for `Owned(t)`, `None`
for `Borrowed(_)`. -/
def as_mut (bm : BorrowMutOps inst) : Mown inst → Option T
  | .Owned t => some (bm.get t)
  | .Borrowed _ => none

/-- Applying a mutation `f` through the mutable view `as_mut`
returns: for `Owned(t)` the mutation goes through `t.borrow_mut()`
into the representation; for `Borrowed(_)`, `as_mut` returned `None`,
so no mutation is possible and the container is unchanged. -/
def mutate (bm : BorrowMutOps inst) (f : T → T) : Mown inst → Mown inst
  | .Owned t => .Owned (bm.modify f t)
  | .Borrowed r => .Borrowed r

/-- Impl `AsRef<T>` for `Mown`: `Owned(t) => t.borrow()`,
`Borrowed(t) => t`. -/
def as_ref : Mown inst → T
  | .Owned t => inst.borrow t
  | .Borrowed t => t

/-- Impl `PartialEq` for `Mown`: `self.as_ref() == other.as_ref()`,
for a value type whose `eq` is `eqT`. -/
def beq (eqT : T → T → Bool) (a b : Mown inst) : Bool :=
  eqT a.as_ref b.as_ref

/-- Impl `Hash` for `Mown`: `self.as_ref().hash(hasher)`.  A hasher is
modelled as a state `σ` and the value type's `Hash` as the state
transformer `hashT`; the container hashes by delegating to `as_ref`. -/
def hash {σ : Type} (hashT : T → σ → σ) (m : Mown inst) (s : σ) : σ :=
  hashT m.as_ref s

/-- Impl `Display` for `Mown`: `self.as_ref().fmt(f)`, modelled as the
text the value type's `Display` produces for `as_ref`. -/
def display (dispT : T → String) (m : Mown inst) : String :=
  dispT m.as_ref

end Mown

/-- Enum `pub enum MownMut<'a, T: ?Sized + ToOwned> { Owned(T::Owned), Borrowed(&'a mut T) }` -/
inductive MownMut {T : Type} (inst : ToOwnedImpl T) : Type where
  | Owned : inst.Owned → MownMut inst
  | Borrowed : T → MownMut inst

namespace MownMut

variable {T : Type} {inst : ToOwnedImpl T}

/-- Method `MownMut::is_owned`. -/
def is_owned : MownMut inst → Bool
  | .Owned _ => true
  | .Borrowed _ => false

/-- Method `MownMut::is_borrowed`. -/
def is_borrowed : MownMut inst → Bool
  | .Owned _ => false
  | .Borrowed _ => true

/-- Impl `AsRef<T>` for `MownMut`: `Owned(t) => t.borrow()`,
`Borrowed(t) => t`. -/
def as_ref : MownMut inst → T
  | .Owned t => inst.borrow t
  | .Borrowed t => t

/-- Impl `AsMut<T>` for `MownMut`, modelled by the referent of the
returned `&mut T`: `Owned(t) => t.borrow_mut()`, `Borrowed(t) => t`.
Total: both variants yield a usable mutable view. -/
def as_mut (bm : BorrowMutOps inst) : MownMut inst → T
  | .Owned t => bm.get t
  | .Borrowed t => t

/-- Applying a mutation `f` through the mutable view `as_mut`
returns: through `t.borrow_mut()` into the representation for
`Owned(t)`, directly on the referent for `Borrowed(t)`. -/
def mutate (bm : BorrowMutOps inst) (f : T → T) : MownMut inst → MownMut inst
  | .Owned t => .Owned (bm.modify f t)
  | .Borrowed t => .Borrowed (f t)

/-- Impl `PartialEq` for `MownMut`: `self.as_ref() == other.as_ref()`. -/
def beq (eqT : T → T → Bool) (a b : MownMut inst) : Bool :=
  eqT a.as_ref b.as_ref

/-- Impl `Hash` for `MownMut`: `self.as_ref().hash(hasher)`. -/
def hash {σ : Type} (hashT : T → σ → σ) (m : MownMut inst) (s : σ) : σ :=
  hashT m.as_ref s

end MownMut

/-- Function `response` from `examples/sized.rs`: `fn response(input: &String) -> Mown<String>`
returns `Owned("World!".to_string())` when `input == "Hello\n"` and
`Borrowed(input)` otherwise. -/
def response (input : String) : Mown (sizedToOwned String) :=
  if input = "Hello\n" then
    Mown.Owned "World!"
  else
    Mown.Borrowed input

/-- C1: equality on both containers is representation-blind.  Part 1:
with the identity instance for a sized type, the container holding
`Owned(v)` compares equal to the container holding `Borrowed(&v)`
whenever the value type's own equality is reflexive at `v`.  Parts 2
and 3: on either container, the result of `==` depends only on the
values obtained via `as_ref`, never on the active variant. -/
theorem mown_eq_representation_blind {T : Type} (eqT : T → T → Bool) (v : T)
    (hrefl : eqT v v = true) :
    Mown.beq eqT (@Mown.Owned T (sizedToOwned T) v) (Mown.Borrowed v) = true ∧
    (∀ (inst : ToOwnedImpl T) (a b c d : Mown inst),
      a.as_ref = c.as_ref → b.as_ref = d.as_ref →
      Mown.beq eqT a b = Mown.beq eqT c d) ∧
    (∀ (inst : ToOwnedImpl T) (a b c d : MownMut inst),
      a.as_ref = c.as_ref → b.as_ref = d.as_ref →
      MownMut.beq eqT a b = MownMut.beq eqT c d) := by
  refine ⟨hrefl, ?_, ?_⟩
  · intro inst a b c d hac hbd
    simp only [Mown.beq, hac, hbd]
  · intro inst a b c d hac hbd
    simp only [MownMut.beq, hac, hbd]

/-- Witness for C1 at the sized instance over `Nat` with `v = 3`. -/
theorem mown_eq_representation_blind_witness :
    Mown.beq (fun a b : Nat => a == b)
      (@Mown.Owned Nat (sizedToOwned Nat) 3) (Mown.Borrowed 3) = true :=
  (mown_eq_representation_blind (fun a b : Nat => a == b) 3 (by decide)).1

/-- C2: for each of the crate's three `ToOwned` instances (the sized
blanket instance, `str`/`String`, and slice/`Vec`), constructing the
immutable container as `Owned(v)` and calling `as_ref` yields a
reference whose referent equals the original value `v`. -/
theorem mown_owned_as_ref_eq (T : Type) (v : T) (s : String) (A : Type) (l : List A) :
    Mown.as_ref (@Mown.Owned T (sizedToOwned T) v) = v ∧
    Mown.as_ref (@Mown.Owned String strToOwned s) = s ∧
    Mown.as_ref (@Mown.Owned (List A) (sliceToOwned A) l) = l :=
  ⟨rfl, rfl, rfl⟩

/-- C3: for every instance of the ownable mapping and every reference
`r`, `as_ref` on `Borrowed(r)` returns exactly the held reference —
the match arm returns its argument unchanged, for an arbitrary
ownable instance. -/
theorem mown_borrowed_as_ref_identity {T : Type} (inst : ToOwnedImpl T) (r : T) :
    Mown.as_ref (@Mown.Borrowed T inst r) = r :=
  rfl

/-- C4: on the immutable container, `as_mut` returns `None` exactly on
the `Borrowed` variant and `Some` exactly on the `Owned` variant
(whenever the representation supports a mutable projection, i.e. the
`BorrowMut` bound is available); there is no other outcome. -/
theorem mown_as_mut_some_iff_owned {T : Type} {inst : ToOwnedImpl T}
    (bm : BorrowMutOps inst) (m : Mown inst) :
    (Mown.as_mut bm m).isSome = m.is_owned ∧
    (Mown.as_mut bm m = none ↔ m.is_borrowed = true) := by
  cases m <;> simp [Mown.as_mut, Mown.is_owned, Mown.is_borrowed]

/-- C5: on the mutable container, `as_mut` yields a usable mutable
view on both variants (it equals the `as_ref` view), and any mutation
applied through that view is observed by a subsequent `as_ref`.  The
two hypotheses are the `BorrowMut` consistency contract — the
`&mut T` returned by `borrow_mut` aliases exactly the value `borrow`
views — which holds for all three instances the crate defines. -/
theorem mownmut_as_mut_total_mutation_observed {T : Type} {inst : ToOwnedImpl T}
    (bm : BorrowMutOps inst)
    (hget : ∀ o, bm.get o = inst.borrow o)
    (hmod : ∀ f o, inst.borrow (bm.modify f o) = f (inst.borrow o))
    (m : MownMut inst) (f : T → T) :
    MownMut.as_mut bm m = MownMut.as_ref m ∧
    MownMut.as_ref (MownMut.mutate bm f m) = f (MownMut.as_ref m) := by
  cases m <;>
    simp [MownMut.as_mut, MownMut.as_ref, MownMut.mutate, hget, hmod]

/-- Witness for C5 at the sized instance over `Nat`, on an owned
container holding `5` mutated by adding `1`. -/
theorem mownmut_as_mut_total_mutation_observed_witness :
    MownMut.as_mut (sizedBorrowMut Nat) (@MownMut.Owned Nat (sizedToOwned Nat) 5) =
      MownMut.as_ref (@MownMut.Owned Nat (sizedToOwned Nat) 5) ∧
    MownMut.as_ref
        (MownMut.mutate (sizedBorrowMut Nat) (fun n => n + 1)
          (@MownMut.Owned Nat (sizedToOwned Nat) 5)) =
      (fun n => n + 1) (MownMut.as_ref (@MownMut.Owned Nat (sizedToOwned Nat) 5)) :=
  mownmut_as_mut_total_mutation_observed (sizedBorrowMut Nat)
    (fun _ => rfl) (fun _ _ => rfl) (MownMut.Owned 5) (fun n => n + 1)

/-- C6: on every instance of either container, `is_owned` and
`is_borrowed` are complementary booleans — exactly one of the two is
true.  Both are pure functions of the container value, so this holds
at every point of the container's lifetime. -/
theorem is_owned_is_borrowed_complementary {T : Type} (inst : ToOwnedImpl T) :
    (∀ m : Mown inst, m.is_owned = !m.is_borrowed ∧ (m.is_owned ≠ m.is_borrowed)) ∧
    (∀ m : MownMut inst, m.is_owned = !m.is_borrowed ∧ (m.is_owned ≠ m.is_borrowed)) := by
  constructor
  · intro m; cases m <;> simp [Mown.is_owned, Mown.is_borrowed]
  · intro m; cases m <;> simp [MownMut.is_owned, MownMut.is_borrowed]

/-- C7: hashing delegates entirely to the value reached via `as_ref`
(part 3), so on either container, whenever two instances compare
equal their hasher-operation sequences coincide, whichever variants
they are in (parts 1 and 2).  The hypothesis is the value type's own
`Hash`/`Eq` consistency contract. -/
theorem mown_hash_consistent_with_eq {T σ : Type} {inst : ToOwnedImpl T}
    (eqT : T → T → Bool) (hashT : T → σ → σ)
    (hcons : ∀ x y, eqT x y = true → ∀ s, hashT x s = hashT y s) :
    (∀ (a b : Mown inst) (s : σ),
      Mown.beq eqT a b = true → Mown.hash hashT a s = Mown.hash hashT b s) ∧
    (∀ (a b : MownMut inst) (s : σ),
      MownMut.beq eqT a b = true → MownMut.hash hashT a s = MownMut.hash hashT b s) ∧
    (∀ (m : Mown inst) (s : σ), Mown.hash hashT m s = hashT m.as_ref s) := by
  refine ⟨?_, ?_, fun m s => rfl⟩
  · intro a b s hab
    exact hcons _ _ hab s
  · intro a b s hab
    exact hcons _ _ hab s

/-- Witness for C7 at the sized instance over `Nat`, hashing with
addition into a `Nat` state, on `Owned(7)` versus `Borrowed(7)`. -/
theorem mown_hash_consistent_with_eq_witness :
    Mown.hash (fun x s => s + x) (@Mown.Owned Nat (sizedToOwned Nat) 7) 0 =
      Mown.hash (fun x s => s + x) (@Mown.Borrowed Nat (sizedToOwned Nat) 7) 0 :=
  (mown_hash_consistent_with_eq (fun a b : Nat => a == b) (fun x s => s + x)
      (fun x y h s => by
        have hxy : x = y := by simpa using h
        rw [hxy])).1
    (Mown.Owned 7) (Mown.Borrowed 7) 0 (by decide)

/-- C8: the active variant is fixed at construction for the whole
lifetime.  Inspection (`is_owned`, `is_borrowed`), `as_ref` and
`as_mut` return values without producing a new container, so the only
container-transforming operation in the embedded API is mutation
through the views returned by `as_mut`; it preserves the active
variant on both containers, and no borrowed-to-owned promotion
operation exists. -/
theorem mown_variant_fixed_for_life {T : Type} {inst : ToOwnedImpl T}
    (bm : BorrowMutOps inst) (f : T → T) :
    (∀ m : Mown inst,
      (Mown.mutate bm f m).is_owned = m.is_owned ∧
      (Mown.mutate bm f m).is_borrowed = m.is_borrowed) ∧
    (∀ m : MownMut inst,
      (MownMut.mutate bm f m).is_owned = m.is_owned ∧
      (MownMut.mutate bm f m).is_borrowed = m.is_borrowed) := by
  constructor
  · intro m
    cases m <;> simp [Mown.mutate, Mown.is_owned, Mown.is_borrowed]
  · intro m
    cases m <;> simp [MownMut.mutate, MownMut.is_owned, MownMut.is_borrowed]

/-- C9: the example client's `response` function: on the trigger input
the result is an `Owned` container displaying as the replacement
text, and on every other input it is a `Borrowed` container
referencing the input and displaying as the input itself. -/
theorem response_trigger_scenario (input : String) :
    (input = "Hello\n" →
      (response input).is_owned = true ∧
      Mown.display (fun s => s) (response input) = "World!") ∧
    (input ≠ "Hello\n" →
      (response input).is_borrowed = true ∧
      Mown.display (fun s => s) (response input) = input) := by
  constructor
  · intro h
    simp [response, h, Mown.display, Mown.as_ref, Mown.is_owned, sizedToOwned]
  · intro h
    simp [response, h, Mown.display, Mown.as_ref, Mown.is_borrowed]

/-- Witness for C9 at the trigger input and at a non-trigger input. -/
theorem response_trigger_scenario_witness :
    ((response "Hello\n").is_owned = true ∧
      Mown.display (fun s => s) (response "Hello\n") = "World!") ∧
    ((response "Hi").is_borrowed = true ∧
      Mown.display (fun s => s) (response "Hi") = "Hi") :=
  ⟨(response_trigger_scenario "Hello\n").1 rfl,
   (response_trigger_scenario "Hi").2 (by decide)⟩

/-- C10: on the immutable container in the `Owned` variant, the
mutable view inside the `Some` returned by `as_mut` aliases the value
`as_ref` reads: the referent of the returned view equals the `as_ref`
view, and any mutation applied through the view is observed by a
subsequent `as_ref`.  The hypotheses are the `BorrowMut` consistency
contract, which holds for all three instances the crate defines. -/
theorem mown_owned_as_mut_aliases_as_ref {T : Type} {inst : ToOwnedImpl T}
    (bm : BorrowMutOps inst)
    (hget : ∀ o, bm.get o = inst.borrow o)
    (hmod : ∀ f o, inst.borrow (bm.modify f o) = f (inst.borrow o))
    (o : inst.Owned) (f : T → T) :
    Mown.as_mut bm (Mown.Owned o) = some (Mown.as_ref (@Mown.Owned T inst o)) ∧
    Mown.as_ref (Mown.mutate bm f (Mown.Owned o)) =
      f (Mown.as_ref (@Mown.Owned T inst o)) := by
  simp [Mown.as_mut, Mown.as_ref, Mown.mutate, hget, hmod]

/-- Witness for C10 at the sized instance over `Nat`, on an owned
container holding `4` mutated by doubling. -/
theorem mown_owned_as_mut_aliases_as_ref_witness :
    Mown.as_mut (sizedBorrowMut Nat) (@Mown.Owned Nat (sizedToOwned Nat) 4) =
      some (Mown.as_ref (@Mown.Owned Nat (sizedToOwned Nat) 4)) ∧
    Mown.as_ref
        (Mown.mutate (sizedBorrowMut Nat) (fun n => 2 * n)
          (@Mown.Owned Nat (sizedToOwned Nat) 4)) =
      (fun n => 2 * n) (Mown.as_ref (@Mown.Owned Nat (sizedToOwned Nat) 4)) :=
  mown_owned_as_mut_aliases_as_ref (sizedBorrowMut Nat)
    (fun _ => rfl) (fun _ _ => rfl) 4 (fun n => 2 * n)
